import Mathlib

/-!
Verification of the templative template-materialization engine.

Shallow embedding of the core (fs_copy.rs, resolved.rs, config.rs,
registry.rs, ops/init.rs) into Lean.  Paths are lists of components;
the destination directory is a finite map from relative paths to nodes;
the compiled glob set, the path canonicalizer, the interactive prompt,
the shell hooks and the git subprocess calls are abstracted as
parameters (oracles), exactly at the points where the Rust code calls
into its collaborators.
-/

namespace Templative

/-- A path relative to a root, as its list of components. -/
abbrev RelPath := List String

/-- A compiled glob set (globset::GlobSet): a matcher on a path given as
its components.  `gs [c]` models `globset.is_match(c)` on one component,
`gs rel` models `globset.is_match(relative)` on a full relative path. -/
abbrev GlobSet := RelPath → Bool

/-- A raw path as stored in a symlink: absolute or relative, with its
components (which may include `NoDot` and `DotDot` spelled as strings). -/
inductive RPath where
  | abs (comps : List String)
  | rel (comps : List String)
deriving DecidableEq, Repr

/-- `RPath.is_relative` mirrors `Path::is_relative`. -/
def RPath.is_relative : RPath → Bool
  | .abs _ => false
  | .rel _ => true

/-- config.rs `GitMode`. -/
inductive GitMode where
  | Fresh
  | Preserve
  | NoGit
deriving DecidableEq, Repr

/-- config.rs `WriteMode`. -/
inductive WriteMode where
  | Strict
  | NoOverwrite
  | SkipOverwrite
  | Overwrite
  | Ask
deriving DecidableEq, Repr

/-- `UpdateOnInit` is referenced from resolved.rs and ops/init.rs;
its declaration is not in the config.rs snapshot.  Modelled from the
usage sites (`Always`, `OnlyUrl`, `Never`). -/
inductive UpdateOnInit where
  | Always
  | OnlyUrl
  | Never
deriving DecidableEq, Repr

/-- fs_copy.rs `FileChoice`: answers of the `Ask` prompt. -/
inductive FileChoice where
  | Overwrite
  | Skip
  | OverwriteAll
  | SkipAll
  | Abort
deriving DecidableEq, Repr

/-- fs_copy.rs `should_skip_entry`: `.git` as any component always skips;
each component and the full relative path are checked against the glob
set.  (The `strip_prefix` error case cannot arise in the embedding: the
walk only produces paths below the source root.) -/
def should_skip_entry (relative : RelPath) (globset : GlobSet) : Bool :=
  relative.any (fun part => part == ".git" || globset [part]) || globset relative

/-- Length of the common component prefix of two paths, mirroring
`zip(..).take_while(|(a, b)| a == b).count()` in
fs_copy.rs `relative_path_between`.  Absolute paths are stored without
their `RootDir` component, which shifts both the common length and the
total length by one and leaves the computed result unchanged. -/
def commonLen : List String → List String → Nat
  | a :: as_, b :: bs => if a = b then commonLen as_ bs + 1 else 0
  | _, _ => 0

/-- fs_copy.rs `relative_path_between`: `..` segments up to the common
ancestor, then the remaining components of `to`; `.` if empty. -/
def relative_path_between (from_dir to_path : List String) : List String :=
  let common := commonLen from_dir to_path
  let result := List.replicate (from_dir.length - common) ".." ++ to_path.drop common
  if result = [] then ["."] else result

/-- `Path::strip_prefix` on component lists: the remainder of `target`
after the prefix `base`, if `base` is a leading segment of `target`. -/
def stripPre : List String → List String → Option (List String)
  | [], target => some target
  | _ :: _, [] => none
  | a :: as_, b :: bs => if a = b then stripPre as_ bs else none

/-- Interpretation of `.` and `..` components against an absolute base,
used to state what a written link target resolves to. -/
def normComps (comps : List String) : List String :=
  comps.foldl
    (fun acc c => if c = "." then acc else if c = ".." then acc.dropLast else acc ++ [c]) []

/-- The oracles `copy_template` needs from the OS: the canonicalizer
(`Path::canonicalize`) and the absolute component lists of the source
and destination roots. -/
structure CopyCtx where
  canon : List String → Option (List String)
  sourceRoot : List String
  destRoot : List String

/-- The pure target computation of fs_copy.rs `copy_symlink` (the
`new_target` value): resolve the raw target against the symlink's
parent, canonicalize, and rewrite according to whether it lands inside
the canonical source root. `p` is the path of the symlink relative to
the source root. -/
def symlinkNewTarget (ctx : CopyCtx) (p : RelPath) (raw_target : RPath) : RPath :=
  let source_parent := ctx.sourceRoot ++ p.dropLast
  let absolute_target :=
    match raw_target with
    | .abs comps => comps
    | .rel comps => source_parent ++ comps
  match ctx.canon absolute_target with
  | some canonical_target =>
    let canonical_source := (ctx.canon ctx.sourceRoot).getD ctx.sourceRoot
    match stripPre canonical_source canonical_target with
    | some target_rel =>
      if raw_target.is_relative then
        raw_target
      else
        let dest_parent := ctx.destRoot ++ p.dropLast
        let target_in_dest := ctx.destRoot ++ target_rel
        .rel (relative_path_between dest_parent target_in_dest)
    | none => .abs canonical_target
  | none => raw_target

/-- A source tree entry: regular file, symlink, or directory. -/
inductive FsTree where
  | file (content : String)
  | link (target : RPath)
  | dir (children : List (String × FsTree))

/-- `DirEntry::file_type().is_dir()` under `follow_links(false)`:
a symlink is never a directory. -/
def FsTree.is_dir : FsTree → Bool
  | .dir _ => true
  | _ => false

mutual

/-- The filtered walk of walkdir with `filter_entry`: yields the entries
below `pre`, pruning every subtree whose root entry is skipped.  The
source root itself is not yielded (the Rust loop `continue`s on it). -/
def FsTree.walk (skip : RelPath → Bool) (pre : RelPath) : FsTree → List (RelPath × FsTree)
  | .file _ => []
  | .link _ => []
  | .dir children => walkList skip pre children

/-- Walk of a list of named children, in order. -/
def walkList (skip : RelPath → Bool) (pre : RelPath) :
    List (String × FsTree) → List (RelPath × FsTree)
  | [] => []
  | (name, t) :: rest =>
    (if skip (pre ++ [name]) then []
     else (pre ++ [name], t) :: FsTree.walk skip (pre ++ [name]) t)
      ++ walkList skip pre rest

end

/-- A destination filesystem node. -/
inductive DNode where
  | file (content : String)
  | link (target : RPath)
  | dir
deriving DecidableEq, Repr

/-- The destination directory: whether the root itself exists, and a
finite map from root-relative paths to nodes. -/
structure Fs where
  rootExists : Bool
  entries : List (RelPath × DNode)
deriving DecidableEq, Repr

/-- Lookup of a path in the destination, not following a final symlink
(`symlink_metadata` view). -/
def Fs.lookup (fs : Fs) (p : RelPath) : Option DNode :=
  (fs.entries.find? (fun e => e.1 == p)).map (·.2)

/-- `dest_path.symlink_metadata().is_ok()`: the path has an entry of any
kind. -/
def Fs.symlinkMetadataOk (fs : Fs) (p : RelPath) : Bool :=
  (fs.lookup p).isSome

/-- `dest_path.exists()`: follows a final relative symlink one level; an
absolute link target points outside the modelled destination map. -/
def Fs.pathExists (fs : Fs) (p : RelPath) : Bool :=
  match fs.lookup p with
  | none => false
  | some (.link (.rel t)) => (fs.lookup (normComps (p.dropLast ++ t))).isSome
  | some (.link (.abs _)) => false
  | some _ => true

/-- Insert (or overwrite) an entry. -/
def Fs.insert (fs : Fs) (p : RelPath) (n : DNode) : Fs :=
  { fs with entries := (p, n) :: fs.entries.filter (fun e => !(e.1 == p)) }

/-- Remove an entry of any kind (`fs::remove_file` on a file or
symlink). -/
def Fs.removeEntry (fs : Fs) (p : RelPath) : Fs :=
  { fs with entries := fs.entries.filter (fun e => !(e.1 == p)) }

/-- All nonempty leading segments of a path, shortest first. -/
def prefixList (p : RelPath) : List RelPath :=
  (List.range p.length).map (fun i => p.take (i + 1))

/-- Errors `copy_template` can produce.  `filesWouldBeOverwritten` is the
variant fs_copy.rs builds from the pre-flight collision list. -/
inductive CopyError where
  | sourceNotDir
  | invalidPattern
  | filesWouldBeOverwritten (paths : List RelPath)
  | createDirFailed (path : RelPath)
  | removeFailed (path : RelPath)
  | symlinkFailed (path : RelPath)
  | copyFailed (path : RelPath)
  | promptFailed
  | abortedByUser
deriving DecidableEq, Repr

/-- `fs::create_dir_all` for one component step: ok on a missing or
existing directory, error when a non-directory is in the way. -/
def Fs.createDir1 (fs : Fs) (p : RelPath) : Except CopyError Fs :=
  match fs.lookup p with
  | none => .ok (fs.insert p .dir)
  | some .dir => .ok fs
  | some _ => .error (.createDirFailed p)

/-- `fs::create_dir_all(p)`: create every missing leading segment. -/
def Fs.createDirAll (fs : Fs) (p : RelPath) : Except CopyError Fs :=
  (prefixList p).foldlM Fs.createDir1 fs

/-- `fs::remove_file`: removes a file or symlink, fails on a
directory. -/
def Fs.removeFile (fs : Fs) (p : RelPath) : Except CopyError Fs :=
  match fs.lookup p with
  | some .dir => .error (.removeFailed p)
  | _ => .ok (fs.removeEntry p)

/-- `std::os::unix::fs::symlink`: fails if the destination exists. -/
def Fs.writeLink (fs : Fs) (p : RelPath) (target : RPath) : Except CopyError Fs :=
  if (fs.lookup p).isSome then .error (.symlinkFailed p)
  else .ok (fs.insert p (.link target))

/-- `fs::copy(source, dest)`: writes the file content at `dest`, fails if
a directory is there.  (The model writes at the raw destination path and
does not follow a pre-existing destination symlink; permission copying is
best-effort in the source and not modelled.) -/
def Fs.writeFile (fs : Fs) (p : RelPath) (content : String) : Except CopyError Fs :=
  match fs.lookup p with
  | some .dir => .error (.copyFailed p)
  | _ => .ok (fs.insert p (.file content))

/-- The mutable state of one `copy_template` run: the destination tree,
the session write mode (`copy_mode` in fs_copy.rs), and the queue of
interactive answers the `Ask` prompt consumes. -/
structure CopySt where
  fs : Fs
  copy_mode : WriteMode
  answers : List FileChoice
deriving DecidableEq, Repr

/-- The tail of the file branch of the copy loop: perform `fs::copy`. -/
def doFileWrite (fs : Fs) (p : RelPath) (content : String)
    (copy_mode : WriteMode) (answers : List FileChoice) : CopySt × Option CopyError :=
  match fs.writeFile p content with
  | .error e => ({ fs := fs, copy_mode := copy_mode, answers := answers }, some e)
  | .ok fs2 => ({ fs := fs2, copy_mode := copy_mode, answers := answers }, none)

/-- The tail of the symlink branch of the copy loop: recreate the link
via `copy_symlink`. -/
def doLinkWrite (ctx : CopyCtx) (fs : Fs) (p : RelPath) (raw_target : RPath)
    (copy_mode : WriteMode) (answers : List FileChoice) : CopySt × Option CopyError :=
  match fs.writeLink p (symlinkNewTarget ctx p raw_target) with
  | .error e => ({ fs := fs, copy_mode := copy_mode, answers := answers }, some e)
  | .ok fs2 => ({ fs := fs2, copy_mode := copy_mode, answers := answers }, none)

/-- Body of the `for entry in walker` loop of fs_copy.rs `copy_template`
for one non-root entry at relative path `p`: symlinks are recreated after
conflict resolution, directories are created, files are copied after
conflict resolution.  A `none` second component means the loop
continues. -/
def copyStep (ctx : CopyCtx) (st : CopySt) (p : RelPath) (t : FsTree) :
    CopySt × Option CopyError :=
  match t with
  | .link raw_target =>
    match st.fs.createDirAll p.dropLast with
    | .error e => (st, some e)
    | .ok fs =>
      if fs.symlinkMetadataOk p then
        match st.copy_mode with
        | .Strict | .Overwrite | .NoOverwrite =>
          match fs.removeFile p with
          | .error e => ({ st with fs := fs }, some e)
          | .ok fs2 => doLinkWrite ctx fs2 p raw_target st.copy_mode st.answers
        | .SkipOverwrite => ({ st with fs := fs }, none)
        | .Ask =>
          match st.answers with
          | [] => ({ st with fs := fs }, some .promptFailed)
          | .Overwrite :: rest =>
            doLinkWrite ctx ((fs.removeFile p).toOption.getD fs) p raw_target st.copy_mode rest
          | .Skip :: rest => ({ st with fs := fs, answers := rest }, none)
          | .OverwriteAll :: rest =>
            doLinkWrite ctx ((fs.removeFile p).toOption.getD fs) p raw_target .Overwrite rest
          | .SkipAll :: rest =>
            ({ st with fs := fs, copy_mode := .SkipOverwrite, answers := rest }, none)
          | .Abort :: rest => ({ st with fs := fs, answers := rest }, some .abortedByUser)
      else
        doLinkWrite ctx fs p raw_target st.copy_mode st.answers
  | .dir _ =>
    match st.fs.createDirAll p with
    | .error e => (st, some e)
    | .ok fs => ({ st with fs := fs }, none)
  | .file content =>
    match st.fs.createDirAll p.dropLast with
    | .error e => (st, some e)
    | .ok fs =>
      if fs.pathExists p then
        match st.copy_mode with
        | .Strict | .Overwrite | .NoOverwrite =>
          doFileWrite fs p content st.copy_mode st.answers
        | .SkipOverwrite => ({ st with fs := fs }, none)
        | .Ask =>
          match st.answers with
          | [] => ({ st with fs := fs }, some .promptFailed)
          | .Overwrite :: rest => doFileWrite fs p content st.copy_mode rest
          | .Skip :: rest => ({ st with fs := fs, answers := rest }, none)
          | .OverwriteAll :: rest => doFileWrite fs p content .Overwrite rest
          | .SkipAll :: rest =>
            ({ st with fs := fs, copy_mode := .SkipOverwrite, answers := rest }, none)
          | .Abort :: rest => ({ st with fs := fs, answers := rest }, some .abortedByUser)
      else
        doFileWrite fs p content st.copy_mode st.answers

/-- The copy loop: `copyStep` on each walked entry in order, stopping at
the first error; the state reached so far is kept (no rollback). -/
def runEntries (ctx : CopyCtx) :
    List (RelPath × FsTree) → CopySt → CopySt × Except CopyError Unit
  | [], st => (st, .ok ())
  | (p, t) :: rest, st =>
    match copyStep ctx st p t with
    | (st2, none) => runEntries ctx rest st2
    | (st2, some e) => (st2, .error e)

/-- fs_copy.rs `collect_collisions`: walk the source with the same
pruning filter, skip the root and directory entries, and keep the
destination paths whose `symlink_metadata` succeeds. -/
def collect_collisions (source : FsTree) (fs : Fs) (globset : GlobSet) : List RelPath :=
  ((source.walk (fun q => should_skip_entry q globset) []).filter
    (fun e => !e.2.is_dir && fs.symlinkMetadataOk e.1)).map (·.1)

/-- fs_copy.rs `copy_template`: source-is-directory check, destination
root creation, glob compilation (`compile` is the oracle for
`build_globset`, `none` standing for an invalid pattern), the
`NoOverwrite` pre-flight, then the walk with the session write mode
starting at `write_mode`. -/
def copy_template (ctx : CopyCtx) (compile : List String → Option GlobSet)
    (source : FsTree) (fs : Fs) (exclude : List String)
    (write_mode : WriteMode) (answers : List FileChoice) :
    Fs × Except CopyError Unit :=
  if !source.is_dir then (fs, .error .sourceNotDir)
  else
    let fs1 : Fs := { fs with rootExists := true }
    match compile exclude with
    | none => (fs1, .error .invalidPattern)
    | some globset =>
      if write_mode = .NoOverwrite ∧ collect_collisions source fs1 globset ≠ [] then
        (fs1, .error (.filesWouldBeOverwritten (collect_collisions source fs1 globset)))
      else
        let entries := source.walk (fun q => should_skip_entry q globset) []
        let out := runEntries ctx entries ⟨fs1, write_mode, answers⟩
        (out.1.fs, out.2)

/-! Configuration, registry and option resolution. -/

def CONFIG_VERSION : Nat := 1

def REGISTRY_VERSION : Nat := 2

/-- config.rs `Config`.  The `no_cache` and `update_on_init` fields are
read by resolved.rs and ops/init.rs though the config.rs snapshot does
not declare them; they are carried here so `ResolvedOptions::build`
can be translated in full. -/
structure Config where
  version : Nat
  git : GitMode
  exclude : List String
  write_mode : WriteMode
  color : Bool
  no_cache : Bool
  update_on_init : UpdateOnInit
deriving DecidableEq, Repr

def default_git_mode : GitMode := .Fresh

def default_exclude : List String := ["node_modules", ".DS_Store"]

def default_write_mode : WriteMode := .Strict

def default_true : Bool := true

/-- config.rs `Config::new`. -/
def Config.new : Config :=
  { version := CONFIG_VERSION
    git := .Fresh
    exclude := default_exclude
    write_mode := .Strict
    color := true
    no_cache := false
    update_on_init := .OnlyUrl }

/-- A parsed config file before serde's field defaults are applied:
`none` fields were missing from the JSON. -/
structure RawConfig where
  version : Nat
  git : Option GitMode
  exclude : Option (List String)
  write_mode : Option WriteMode
  color : Option Bool
deriving DecidableEq, Repr

/-- The serde `#[serde(default = ...)]` fallbacks of config.rs. -/
def RawConfig.toConfig (raw : RawConfig) : Config :=
  { version := raw.version
    git := raw.git.getD default_git_mode
    exclude := raw.exclude.getD default_exclude
    write_mode := raw.write_mode.getD default_write_mode
    color := raw.color.getD default_true
    no_cache := false
    update_on_init := .OnlyUrl }

inductive LoadError where
  | parseError
  | unsupportedConfigVersion
  | unsupportedRegistryVersion (found expected : Nat)
deriving DecidableEq, Repr

/-- config.rs `Config::load_from_path`.  The input models the file:
`none` is a missing file, `some none` an unreadable or unparsable one,
`some (some raw)` a parsed JSON object. -/
def Config.load_from_path : Option (Option RawConfig) → Except LoadError Config
  | none => .ok Config.new
  | some none => .error .parseError
  | some (some raw) =>
    let config := raw.toConfig
    if config.version > CONFIG_VERSION then .error .unsupportedConfigVersion
    else .ok config

/-- registry.rs `Template`. -/
structure Template where
  name : String
  location : String
  git : Option GitMode
  description : Option String
  commit : Option String
  pre_init : Option String
  post_init : Option String
  git_ref : Option String
  no_cache : Option Bool
  exclude : Option (List String)
  write_mode : Option WriteMode
deriving DecidableEq, Repr

/-- registry.rs `Registry`. -/
structure Registry where
  version : Nat
  templates : List Template
deriving DecidableEq, Repr

/-- registry.rs `Registry::new`. -/
def Registry.new : Registry :=
  { version := REGISTRY_VERSION, templates := [] }

/-- registry.rs `Registry::load_from_path`: any version other than the
supported one is rejected. -/
def Registry.load_from_path : Option (Option Registry) → Except LoadError Registry
  | none => .ok Registry.new
  | some none => .error .parseError
  | some (some registry) =>
    if registry.version ≠ REGISTRY_VERSION then
      .error (.unsupportedRegistryVersion registry.version REGISTRY_VERSION)
    else .ok registry

/-- registry.rs `Registry::get`. -/
def Registry.get (registry : Registry) (name : String) : Option Template :=
  registry.templates.find? (fun tmpl => tmpl.name == name)

/-- resolved.rs `ResolvedOptions`. -/
structure ResolvedOptions where
  git : GitMode
  commit : Option String
  pre_init : Option String
  post_init : Option String
  no_cache : Bool
  git_ref : Option String
  update_on_init : UpdateOnInit
  exclude : List String
  write_mode : WriteMode
deriving DecidableEq, Repr

/-- resolved.rs `ResolvedOptions::build`: CLI flag, else template field,
else config default for `git` and `write_mode`; the exclude list is the
config list extended by the template list. -/
def ResolvedOptions.build (config : Config) (template : Template)
    (git_flag : Option GitMode) (write_mode_flag : Option WriteMode) : ResolvedOptions :=
  let exclude :=
    match template.exclude with
    | some template_exclude => config.exclude ++ template_exclude
    | none => config.exclude
  { git :=
      match git_flag with
      | some g => g
      | none =>
        match template.git with
        | some g => g
        | none => config.git
    commit := template.commit
    pre_init := template.pre_init
    post_init := template.post_init
    no_cache := template.no_cache.getD config.no_cache
    git_ref := template.git_ref
    update_on_init := config.update_on_init
    exclude := exclude
    write_mode :=
      match write_mode_flag with
      | some w => w
      | none =>
        match template.write_mode with
        | some w => w
        | none => config.write_mode }

/-! The `cmd_init` operation (ops/init.rs). -/

/-- utilities.rs `is_dir_empty` on the modelled target directory. -/
def is_dir_empty (fs : Fs) : Bool :=
  fs.entries.isEmpty

inductive CmdError where
  | templateNotFound (name : String)
  | resolveFailed
  | templatePathMissing
  | dangerousPath
  | hookFailed
  | targetNotEmpty
  | copyError (e : CopyError)
  | gitFailed
deriving DecidableEq, Repr

/-- The external collaborators of `cmd_init`: the copy context, the glob
compiler, the result of `resolve_template_path` (clone / cache / local
path, yielding the source tree or `none` when the path is missing or not
a directory), `is_dangerous_path` of the canonicalized target, the shell
hook runner (which may mutate the target directory and fail), and the
git subprocess wrappers (which may mutate the target and fail). -/
structure InitEnv where
  ctx : CopyCtx
  compile : List String → Option GlobSet
  resolve_template_path : Except Unit (Option FsTree)
  dangerous : Bool
  run_hook : String → Fs → Except Unit Fs
  init_and_commit : Fs → Except Unit Fs
  add_and_commit : Fs → Except Unit Fs
  clone_local : Fs → Except Unit Fs

/-- The post-init hook of ops/init.rs: a failure is only a logged
warning, never an error. -/
def runPostInit (env : InitEnv) (post : Option String) (fs : Fs) :
    Fs × Except CmdError Unit :=
  match post with
  | none => (fs, .ok ())
  | some cmd =>
    match env.run_hook cmd fs with
    | .error _ => (fs, .ok ())
    | .ok fs2 => (fs2, .ok ())

/-- ops/init.rs `cmd_init`: registry lookup, option resolution, template
source resolution, target creation, dangerous-path check, pre-init hook,
Strict emptiness check, then the git-mode dispatch around
`copy_template`. -/
def cmd_init (env : InitEnv) (config : Config) (registry : Registry)
    (template_name : String) (target : Fs)
    (git_flag : Option GitMode) (write_mode_flag : Option WriteMode)
    (answers : List FileChoice) : Fs × Except CmdError Unit :=
  match registry.get template_name with
  | none => (target, .error (.templateNotFound template_name))
  | some template =>
    let resolved := ResolvedOptions.build config template git_flag write_mode_flag
    match env.resolve_template_path with
    | .error _ => (target, .error .resolveFailed)
    | .ok none => (target, .error .templatePathMissing)
    | .ok (some template_path) =>
      if !template_path.is_dir then (target, .error .templatePathMissing)
      else
        let target1 := if !target.rootExists then { target with rootExists := true } else target
        if env.dangerous then (target1, .error .dangerousPath)
        else
          match
            (match resolved.pre_init with
             | none => Except.ok target1
             | some cmd => env.run_hook cmd target1) with
          | .error _ => (target1, .error .hookFailed)
          | .ok target2 =>
            if resolved.write_mode = .Strict ∧ is_dir_empty target2 = false then
              (target2, .error .targetNotEmpty)
            else
              match resolved.git with
              | .Fresh =>
                match copy_template env.ctx env.compile template_path target2
                    resolved.exclude resolved.write_mode answers with
                | (fs3, .error e) => (fs3, .error (.copyError e))
                | (fs3, .ok _) =>
                  match
                    (if fs3.pathExists [".git"] then env.add_and_commit fs3
                     else env.init_and_commit fs3) with
                  | .error _ => (fs3, .error .gitFailed)
                  | .ok fs4 => runPostInit env resolved.post_init fs4
              | .Preserve =>
                match env.clone_local target2 with
                | .error _ => (target2, .error .gitFailed)
                | .ok fs4 => runPostInit env resolved.post_init fs4
              | .NoGit =>
                match copy_template env.ctx env.compile template_path target2
                    resolved.exclude resolved.write_mode answers with
                | (fs3, .error e) => (fs3, .error (.copyError e))
                | (fs3, .ok _) => runPostInit env resolved.post_init fs3

/-! Specification-side vocabulary used by the theorems. -/

/-- A path together with all its nonempty leading segments survives the
pruning filter: this is what membership in the filtered walk gives. -/
def ChainOk (skip : RelPath → Bool) (p : RelPath) : Prop :=
  p ≠ [] ∧ ∀ i < p.length, skip (p.take (i + 1)) = false

/-- Every entry of the destination lies on an unskipped chain. -/
def GoodFs (skip : RelPath → Bool) (fs : Fs) : Prop :=
  ∀ e ∈ fs.entries, ChainOk skip e.1

/-- Component lists free of `.` and `..`, as canonicalized paths are. -/
def cleanComps (l : List String) : Prop :=
  ∀ c ∈ l, c ≠ "." ∧ c ≠ ".."

/-- What a relative link target written at a location with parent `base`
points at: the normalized concatenation. -/
def resolveRel (base target : List String) : List String :=
  normComps (base ++ target)

/-- A concrete glob set for witnesses: each pattern matches exactly the
one-component path equal to it (a literal, wildcard-free glob). -/
def gsLit (pats : List String) : GlobSet :=
  fun p => pats.any (fun pat => p == [pat])

/-- A concrete glob compiler for witnesses built on `gsLit`. -/
def litCompile (pats : List String) : Option GlobSet :=
  some (gsLit pats)

/-- A glob compiler that rejects every pattern list, standing for a list
containing a syntactically invalid pattern. -/
def failCompile : List String → Option GlobSet :=
  fun _ => none

/-- A copy context for witnesses whose canonicalizer resolves nothing. -/
def ctxNone : CopyCtx :=
  ⟨fun _ => none, ["src"], ["dst"]⟩

/-- A template value for witnesses: overrides `git`, `write_mode` and
`exclude`, no hooks. -/
def tmplSample : Template :=
  { name := "t", location := "/tmp/t", git := some .Preserve, description := none
    commit := none, pre_init := none, post_init := none, git_ref := none
    no_cache := none, exclude := some ["dist"], write_mode := some .NoOverwrite }

/-- A registered template with a pre-init hook, `NoGit` mode and an
`Overwrite` write mode, for the precondition-ordering counterexamples. -/
def tmplHooked : Template :=
  { name := "t", location := "/tmp/t", git := some .NoGit, description := none
    commit := none, pre_init := some "touch hooked", post_init := none, git_ref := none
    no_cache := none, exclude := none, write_mode := some .Overwrite }

/-- A registered template with a pre-init hook and no other overrides
(so the config's `Strict` write mode applies). -/
def tmplHookedStrict : Template :=
  { name := "t", location := "/tmp/t", git := some .NoGit, description := none
    commit := none, pre_init := some "false", post_init := none, git_ref := none
    no_cache := none, exclude := none, write_mode := none }

/-- A registry holding `tmplHooked`. -/
def regHooked : Registry := { version := 2, templates := [tmplHooked] }

/-- A registry holding `tmplHookedStrict`. -/
def regHookedStrict : Registry := { version := 2, templates := [tmplHookedStrict] }

/-- An environment whose glob compiler rejects every pattern list and
whose pre-init hook writes a file `hooked` into the target. -/
def envBadPattern : InitEnv :=
  { ctx := ctxNone
    compile := failCompile
    resolve_template_path := .ok (some (.dir [("a", .file "x")]))
    dangerous := false
    run_hook := fun _ fs => .ok (fs.insert ["hooked"] (.file "h"))
    init_and_commit := fun fs => .ok fs
    add_and_commit := fun fs => .ok fs
    clone_local := fun fs => .ok fs }

/-- An environment whose shell hook fails. -/
def envHookFails : InitEnv :=
  { ctx := ctxNone
    compile := litCompile
    resolve_template_path := .ok (some (.dir [("a", .file "x")]))
    dangerous := false
    run_hook := fun _ _ => .error ()
    init_and_commit := fun fs => .ok fs
    add_and_commit := fun fs => .ok fs
    clone_local := fun fs => .ok fs }

/-- The children of a tree node; empty for leaves. -/
def FsTree.children : FsTree → List (String × FsTree)
  | .dir cs => cs
  | _ => []

/-! Theorems.  Each claim of the specification gets one theorem; shared
lemmas come first. -/

/-- The walk of any node is the walk of its children list. -/
theorem walk_eq_walkList (skip : RelPath → Bool) (pre : RelPath) (t : FsTree) :
    FsTree.walk skip pre t = walkList skip pre t.children := by
  cases t <;> rfl

/-- Extending an unskipped chain by one unskipped component. -/
theorem chain_snoc (skip : RelPath → Bool) (pre : RelPath) (name : String)
    (hpre : ∀ i < pre.length, skip (pre.take (i + 1)) = false)
    (hskip : skip (pre ++ [name]) = false) :
    ∀ i < (pre ++ [name]).length, skip ((pre ++ [name]).take (i + 1)) = false := by
  intro i hi
  rcases Nat.lt_or_ge i pre.length with hlt | hge
  · rw [List.take_append_of_le_length (by omega)]
    exact hpre i hlt
  · have hieq : i = pre.length := by simp at hi; omega
    subst hieq
    have hlen : (pre ++ [name]).length = pre.length + 1 := by simp
    rw [← hlen, List.take_length]
    exact hskip

/-- Every entry of the filtered walk of a children list lies on a fully
unskipped chain. -/
theorem walkList_chain (skip : RelPath → Bool) (pre : RelPath)
    (cs : List (String × FsTree))
    (hpre : ∀ i < pre.length, skip (pre.take (i + 1)) = false) :
    ∀ e ∈ walkList skip pre cs, ChainOk skip e.1 := by
  match cs with
  | [] => intro e he; simp [walkList] at he
  | (name, t) :: rest =>
    intro e he
    rw [walkList] at he
    rcases List.mem_append.1 he with h1 | h2
    · by_cases hskip : skip (pre ++ [name])
      · rw [if_pos hskip] at h1; simp at h1
      · rw [if_neg hskip] at h1
        have hskip' : skip (pre ++ [name]) = false := by
          exact Bool.not_eq_true _ ▸ (by simpa using hskip)
        have hchain : ∀ i < (pre ++ [name]).length,
            skip ((pre ++ [name]).take (i + 1)) = false :=
          chain_snoc skip pre name hpre hskip'
        rcases List.mem_cons.1 h1 with rfl | h1'
        · exact ⟨by simp, hchain⟩
        · rw [walk_eq_walkList] at h1'
          exact walkList_chain skip (pre ++ [name]) t.children hchain e h1'
    · exact walkList_chain skip pre rest hpre e h2
termination_by sizeOf cs
decreasing_by
all_goals cases t <;> simp [FsTree.children] <;> try omega

/-- A chain stays unskipped on its nonempty leading segments. -/
theorem chainOk_take (skip : RelPath → Bool) (p : RelPath) (h : ChainOk skip p)
    (m : Nat) (hm : 0 < m) : ChainOk skip (p.take m) := by
  obtain ⟨hne, hch⟩ := h
  refine ⟨?_, ?_⟩
  · simp only [ne_eq, List.take_eq_nil_iff]
    push_neg
    exact ⟨by omega, hne⟩
  · intro i hi
    rw [List.take_take]
    have hlen : (p.take m).length ≤ p.length := by simp [List.length_take]
    have hmin : min (i + 1) m = i + 1 := by
      have hm2 : (p.take m).length ≤ m := by simp [List.length_take]
      omega
    rw [hmin]
    exact hch i (by omega)

/-- Inserting an entry on an unskipped chain preserves goodness. -/
theorem goodFs_insert (skip : RelPath → Bool) (fs : Fs) (p : RelPath) (n : DNode)
    (hfs : GoodFs skip fs) (hp : ChainOk skip p) : GoodFs skip (fs.insert p n) := by
  intro e he
  simp only [Fs.insert, List.mem_cons] at he
  rcases he with rfl | he
  · exact hp
  · exact hfs e (List.mem_of_mem_filter he)

/-- Removing entries preserves goodness. -/
theorem goodFs_removeEntry (skip : RelPath → Bool) (fs : Fs) (p : RelPath)
    (hfs : GoodFs skip fs) : GoodFs skip (fs.removeEntry p) :=
  fun e he => hfs e (List.mem_of_mem_filter he)

/-- One directory-creation step preserves goodness. -/
theorem goodFs_createDir1 (skip : RelPath → Bool) (fs : Fs) (p : RelPath) (fs' : Fs)
    (hfs : GoodFs skip fs) (hp : ChainOk skip p)
    (h : fs.createDir1 p = .ok fs') : GoodFs skip fs' := by
  rw [Fs.createDir1] at h
  split at h
  · cases h; exact goodFs_insert skip fs p .dir hfs hp
  · cases h; exact hfs
  · cases h

/-- Folding directory creation over chain-ok paths preserves goodness. -/
theorem goodFs_foldCreate (skip : RelPath → Bool) :
    ∀ (L : List RelPath) (fs fs' : Fs),
      (∀ q ∈ L, ChainOk skip q) → GoodFs skip fs →
      L.foldlM Fs.createDir1 fs = .ok fs' → GoodFs skip fs' := by
  intro L
  induction L with
  | nil =>
    intro fs fs' _ hfs h
    simp only [List.foldlM_nil, pure] at h
    cases h
    exact hfs
  | cons q L ih =>
    intro fs fs' hL hfs h
    rw [List.foldlM_cons] at h
    cases hc : fs.createDir1 q with
    | error e => rw [hc] at h; simp [Bind.bind, Except.bind] at h
    | ok fs1 =>
      rw [hc] at h
      simp only [Bind.bind, Except.bind] at h
      exact ih fs1 fs' (fun r hr => hL r (List.mem_cons_of_mem _ hr))
        (goodFs_createDir1 skip fs q fs1 hfs (hL q (List.mem_cons_self _ _)) hc) h

/-- The leading segments of a chain-ok path are chain-ok. -/
theorem prefixList_chain_self (skip : RelPath → Bool) (p : RelPath)
    (hp : ChainOk skip p) : ∀ r ∈ prefixList p, ChainOk skip r := by
  intro r hr
  simp only [prefixList, List.mem_map, List.mem_range] at hr
  obtain ⟨i, _, rfl⟩ := hr
  exact chainOk_take skip p hp (i + 1) (by omega)

/-- The leading segments of a chain-ok path's parent are chain-ok. -/
theorem prefixList_chain_dropLast (skip : RelPath → Bool) (p : RelPath)
    (hp : ChainOk skip p) : ∀ r ∈ prefixList p.dropLast, ChainOk skip r := by
  intro r hr
  simp only [prefixList, List.mem_map, List.mem_range] at hr
  obtain ⟨i, hi, rfl⟩ := hr
  have hdl : p.dropLast.take (i + 1) = p.take (i + 1) := by
    rw [List.dropLast_eq_take, List.take_take]
    congr 1
    simp only [List.length_dropLast] at hi
    omega
  rw [hdl]
  exact chainOk_take skip p hp (i + 1) (by omega)

/-- `createDirAll` on the path itself preserves goodness. -/
theorem goodFs_createDirAll_self (skip : RelPath → Bool) (fs : Fs) (p : RelPath)
    (fs' : Fs) (hfs : GoodFs skip fs) (hp : ChainOk skip p)
    (h : fs.createDirAll p = .ok fs') : GoodFs skip fs' :=
  goodFs_foldCreate skip (prefixList p) fs fs' (prefixList_chain_self skip p hp) hfs h

/-- `createDirAll` on the parent preserves goodness. -/
theorem goodFs_createDirAll_parent (skip : RelPath → Bool) (fs : Fs) (p : RelPath)
    (fs' : Fs) (hfs : GoodFs skip fs) (hp : ChainOk skip p)
    (h : fs.createDirAll p.dropLast = .ok fs') : GoodFs skip fs' :=
  goodFs_foldCreate skip (prefixList p.dropLast) fs fs'
    (prefixList_chain_dropLast skip p hp) hfs h

/-- `removeFile` preserves goodness. -/
theorem goodFs_removeFile (skip : RelPath → Bool) (fs : Fs) (p : RelPath) (fs' : Fs)
    (hfs : GoodFs skip fs) (h : fs.removeFile p = .ok fs') : GoodFs skip fs' := by
  rw [Fs.removeFile] at h
  split at h
  · cases h
  · cases h; exact goodFs_removeEntry skip fs p hfs

/-- The ignored-failure removal of the `Ask`/`Overwrite` arm preserves
goodness. -/
theorem goodFs_removeFile_getD (skip : RelPath → Bool) (fs : Fs) (p : RelPath)
    (hfs : GoodFs skip fs) : GoodFs skip ((fs.removeFile p).toOption.getD fs) := by
  cases h : fs.removeFile p with
  | error e => simpa [Except.toOption] using hfs
  | ok fs1 =>
    have := goodFs_removeFile skip fs p fs1 hfs h
    simpa [Except.toOption] using this

/-- The file-write tail preserves goodness. -/
theorem goodFs_doFileWrite (skip : RelPath → Bool) (fs : Fs) (p : RelPath)
    (content : String) (m : WriteMode) (a : List FileChoice)
    (hfs : GoodFs skip fs) (hp : ChainOk skip p) :
    GoodFs skip (doFileWrite fs p content m a).1.fs := by
  rw [doFileWrite]
  cases hw : fs.writeFile p content with
  | error e => exact hfs
  | ok fs2 =>
    rw [Fs.writeFile] at hw
    split at hw
    · cases hw
    · cases hw; exact goodFs_insert skip fs p (.file content) hfs hp

/-- The link-write tail preserves goodness. -/
theorem goodFs_doLinkWrite (skip : RelPath → Bool) (ctx : CopyCtx) (fs : Fs)
    (p : RelPath) (raw_target : RPath) (m : WriteMode) (a : List FileChoice)
    (hfs : GoodFs skip fs) (hp : ChainOk skip p) :
    GoodFs skip (doLinkWrite ctx fs p raw_target m a).1.fs := by
  rw [doLinkWrite]
  cases hw : fs.writeLink p (symlinkNewTarget ctx p raw_target) with
  | error e => exact hfs
  | ok fs2 =>
    rw [Fs.writeLink] at hw
    split at hw
    · cases hw
    · cases hw
      exact goodFs_insert skip fs p (.link (symlinkNewTarget ctx p raw_target)) hfs hp

/-- One copy-loop step preserves goodness when the entry path is on an
unskipped chain. -/
theorem goodFs_copyStep (skip : RelPath → Bool) (ctx : CopyCtx) (st : CopySt)
    (p : RelPath) (t : FsTree) (hfs : GoodFs skip st.fs) (hp : ChainOk skip p) :
    GoodFs skip (copyStep ctx st p t).1.fs := by
  cases t with
  | link raw_target =>
    rw [copyStep]
    cases hcd : st.fs.createDirAll p.dropLast with
    | error e => exact hfs
    | ok fs1 =>
      dsimp only
      have h1 : GoodFs skip fs1 := goodFs_createDirAll_parent skip st.fs p fs1 hfs hp hcd
      by_cases hex : fs1.symlinkMetadataOk p
      · rw [if_pos hex]
        cases hm : st.copy_mode with
        | Strict =>
          dsimp only
          cases hrm : fs1.removeFile p with
          | error e => exact h1
          | ok fs2 =>
            exact goodFs_doLinkWrite skip ctx fs2 p raw_target _ _
              (goodFs_removeFile skip fs1 p fs2 h1 hrm) hp
        | Overwrite =>
          dsimp only
          cases hrm : fs1.removeFile p with
          | error e => exact h1
          | ok fs2 =>
            exact goodFs_doLinkWrite skip ctx fs2 p raw_target _ _
              (goodFs_removeFile skip fs1 p fs2 h1 hrm) hp
        | NoOverwrite =>
          dsimp only
          cases hrm : fs1.removeFile p with
          | error e => exact h1
          | ok fs2 =>
            exact goodFs_doLinkWrite skip ctx fs2 p raw_target _ _
              (goodFs_removeFile skip fs1 p fs2 h1 hrm) hp
        | SkipOverwrite => exact h1
        | Ask =>
          dsimp only
          cases hans : st.answers with
          | nil => exact h1
          | cons choice rest =>
            cases choice with
            | Overwrite =>
              exact goodFs_doLinkWrite skip ctx _ p raw_target _ _
                (goodFs_removeFile_getD skip fs1 p h1) hp
            | Skip => exact h1
            | OverwriteAll =>
              exact goodFs_doLinkWrite skip ctx _ p raw_target _ _
                (goodFs_removeFile_getD skip fs1 p h1) hp
            | SkipAll => exact h1
            | Abort => exact h1
      · rw [if_neg hex]
        exact goodFs_doLinkWrite skip ctx fs1 p raw_target _ _ h1 hp
  | dir children =>
    rw [copyStep]
    cases hcd : st.fs.createDirAll p with
    | error e => exact hfs
    | ok fs1 => exact goodFs_createDirAll_self skip st.fs p fs1 hfs hp hcd
  | file content =>
    rw [copyStep]
    cases hcd : st.fs.createDirAll p.dropLast with
    | error e => exact hfs
    | ok fs1 =>
      dsimp only
      have h1 : GoodFs skip fs1 := goodFs_createDirAll_parent skip st.fs p fs1 hfs hp hcd
      by_cases hex : fs1.pathExists p
      · rw [if_pos hex]
        cases hm : st.copy_mode with
        | Strict => exact goodFs_doFileWrite skip fs1 p content _ _ h1 hp
        | Overwrite => exact goodFs_doFileWrite skip fs1 p content _ _ h1 hp
        | NoOverwrite => exact goodFs_doFileWrite skip fs1 p content _ _ h1 hp
        | SkipOverwrite => exact h1
        | Ask =>
          dsimp only
          cases hans : st.answers with
          | nil => exact h1
          | cons choice rest =>
            cases choice with
            | Overwrite => exact goodFs_doFileWrite skip fs1 p content _ _ h1 hp
            | Skip => exact h1
            | OverwriteAll => exact goodFs_doFileWrite skip fs1 p content _ _ h1 hp
            | SkipAll => exact h1
            | Abort => exact h1
      · rw [if_neg hex]
        exact goodFs_doFileWrite skip fs1 p content _ _ h1 hp

/-- The copy loop preserves goodness over chain-ok entries. -/
theorem goodFs_runEntries (skip : RelPath → Bool) (ctx : CopyCtx) :
    ∀ (entries : List (RelPath × FsTree)) (st : CopySt),
      GoodFs skip st.fs → (∀ e ∈ entries, ChainOk skip e.1) →
      GoodFs skip (runEntries ctx entries st).1.fs := by
  intro entries
  induction entries with
  | nil => intro st hfs _; exact hfs
  | cons e rest ih =>
    intro st hfs hch
    obtain ⟨p, t⟩ := e
    rw [runEntries]
    have hstep := goodFs_copyStep skip ctx st p t hfs (hch (p, t) (List.mem_cons_self _ _))
    cases hs : copyStep ctx st p t with
    | mk st2 err =>
      cases err with
      | none =>
        refine ih st2 ?_ (fun e he => hch e (List.mem_cons_of_mem _ he))
        rw [hs] at hstep
        exact hstep
      | some e' =>
        rw [hs] at hstep
        exact hstep

/-- C4: `ResolvedOptions::build` resolves `git` and `write_mode` as CLI
flag, else template field, else config default; `exclude` is the config
list followed by the template list (config entries first, never
replaced); the function is total, with no error case. -/
theorem C4_option_resolution (config : Config) (template : Template)
    (git_flag : Option GitMode) (write_mode_flag : Option WriteMode) :
    (∀ g, git_flag = some g →
      (ResolvedOptions.build config template git_flag write_mode_flag).git = g) ∧
    (git_flag = none → ∀ g, template.git = some g →
      (ResolvedOptions.build config template git_flag write_mode_flag).git = g) ∧
    (git_flag = none → template.git = none →
      (ResolvedOptions.build config template git_flag write_mode_flag).git = config.git) ∧
    (∀ w, write_mode_flag = some w →
      (ResolvedOptions.build config template git_flag write_mode_flag).write_mode = w) ∧
    (write_mode_flag = none → ∀ w, template.write_mode = some w →
      (ResolvedOptions.build config template git_flag write_mode_flag).write_mode = w) ∧
    (write_mode_flag = none → template.write_mode = none →
      (ResolvedOptions.build config template git_flag write_mode_flag).write_mode
        = config.write_mode) ∧
    (∀ template_exclude, template.exclude = some template_exclude →
      (ResolvedOptions.build config template git_flag write_mode_flag).exclude
        = config.exclude ++ template_exclude) ∧
    (template.exclude = none →
      (ResolvedOptions.build config template git_flag write_mode_flag).exclude
        = config.exclude) ∧
    (ResolvedOptions.build config template git_flag write_mode_flag).exclude.take
        config.exclude.length = config.exclude := by
  refine ⟨?_, ?_, ?_, ?_, ?_, ?_, ?_, ?_, ?_⟩
  · rintro g rfl; rfl
  · rintro rfl g hg; simp [ResolvedOptions.build, hg]
  · rintro rfl hg; simp [ResolvedOptions.build, hg]
  · rintro w rfl; rfl
  · rintro rfl w hw; simp [ResolvedOptions.build, hw]
  · rintro rfl hw; simp [ResolvedOptions.build, hw]
  · intro te hte; simp [ResolvedOptions.build, hte]
  · intro hte; simp [ResolvedOptions.build, hte]
  · cases hte : template.exclude with
    | none => simp [ResolvedOptions.build, hte]
    | some te => simp [ResolvedOptions.build, hte, List.take_left]

/-- Witness for C4 at a concrete config and template. -/
theorem C4_option_resolution_witness :
    (ResolvedOptions.build Config.new tmplSample (some .NoGit) none).git = .NoGit ∧
    (ResolvedOptions.build Config.new tmplSample none none).git = .Preserve ∧
    (ResolvedOptions.build Config.new tmplSample none (some .Ask)).write_mode = .Ask ∧
    (ResolvedOptions.build Config.new tmplSample none none).write_mode = .NoOverwrite ∧
    (ResolvedOptions.build Config.new tmplSample none none).exclude
      = ["node_modules", ".DS_Store", "dist"] :=
  ⟨(C4_option_resolution Config.new tmplSample (some .NoGit) none).1 .NoGit rfl,
   (C4_option_resolution Config.new tmplSample none none).2.1 rfl .Preserve rfl,
   (C4_option_resolution Config.new tmplSample none (some .Ask)).2.2.2.1 .Ask rfl,
   (C4_option_resolution Config.new tmplSample none none).2.2.2.2.1 rfl .NoOverwrite rfl,
   ((C4_option_resolution Config.new tmplSample none none).2.2.2.2.2.2.1 ["dist"] rfl).trans rfl⟩

/-- C8: `Config::load_from_path` on a parsed file fails exactly when the
stored version exceeds the supported one (missing fields falling back to
defaults), `Registry::load_from_path` fails on any version different
from the supported one, and a missing file yields the default value for
both. -/
theorem C8_version_gates :
    (Config.load_from_path none = .ok Config.new) ∧
    (Registry.load_from_path none = .ok Registry.new) ∧
    (∀ raw : RawConfig,
      (∃ e, Config.load_from_path (some (some raw)) = .error e) ↔
        raw.version > CONFIG_VERSION) ∧
    (∀ raw : RawConfig, raw.version ≤ CONFIG_VERSION →
      Config.load_from_path (some (some raw)) = .ok raw.toConfig) ∧
    (∀ registry : Registry,
      (∃ e, Registry.load_from_path (some (some registry)) = .error e) ↔
        registry.version ≠ REGISTRY_VERSION) := by
  refine ⟨rfl, rfl, ?_, ?_, ?_⟩
  · intro raw
    constructor
    · rintro ⟨e, he⟩
      by_contra hv
      simp [Config.load_from_path, RawConfig.toConfig, hv] at he
    · intro hv
      exact ⟨.unsupportedConfigVersion, by simp [Config.load_from_path, RawConfig.toConfig, hv]⟩
  · intro raw hv
    simp [Config.load_from_path, RawConfig.toConfig]
    omega
  · intro registry
    constructor
    · rintro ⟨e, he⟩
      by_contra hv
      simp [Registry.load_from_path, hv] at he
    · intro hv
      exact ⟨.unsupportedRegistryVersion registry.version REGISTRY_VERSION,
        by simp [Registry.load_from_path, hv]⟩

/-- Witness for C8: a future config version is rejected, the current one
is accepted with defaults applied, and a registry of version 1 is
rejected by the version-2 build. -/
theorem C8_version_gates_witness :
    (∃ e, Config.load_from_path
      (some (some ⟨99, none, none, none, none⟩)) = .error e) ∧
    Config.load_from_path (some (some ⟨1, none, none, none, none⟩))
      = .ok (RawConfig.toConfig ⟨1, none, none, none, none⟩) ∧
    (∃ e, Registry.load_from_path (some (some ⟨1, []⟩)) = .error e) :=
  ⟨(C8_version_gates.2.2.1 ⟨99, none, none, none, none⟩).mpr (by decide),
   C8_version_gates.2.2.2.1 ⟨1, none, none, none, none⟩ (by decide),
   (C8_version_gates.2.2.2.2 ⟨1, []⟩).mpr (by decide)⟩

/-- C3 counterexample: with an invalid exclude pattern, `cmd_init` still
creates the (previously absent) target directory and runs the pre-init
hook, whose write is left behind; pattern compilation only fails inside
`copy_template`, after those mutations. -/
theorem C3_counterexample :
    cmd_init envBadPattern Config.new regHooked "t" ⟨false, []⟩ none none []
      = (⟨true, [(["hooked"], .file "h")]⟩, .error (.copyError .invalidPattern)) ∧
    (Fs.rootExists ⟨false, []⟩ = false ∧ Fs.entries ⟨false, []⟩ = []) :=
  ⟨rfl, rfl, rfl⟩

/-- C3 amended: an invalid exclude pattern makes `copy_template` fail
before any destination entry is written — only the destination root
creation (and, in `cmd_init`, the earlier target creation and pre-init
hook) precedes the failure. -/
theorem C3_invalid_pattern_no_entry_writes (ctx : CopyCtx)
    (compile : List String → Option GlobSet) (source : FsTree) (fs : Fs)
    (exclude : List String) (write_mode : WriteMode) (answers : List FileChoice)
    (hsrc : source.is_dir = true) (hcompile : compile exclude = none) :
    copy_template ctx compile source fs exclude write_mode answers
      = ({ fs with rootExists := true }, .error .invalidPattern) := by
  simp [copy_template, hsrc, hcompile]

/-- Witness for C3 amended at a concrete invalid pattern list. -/
theorem C3_invalid_pattern_witness :
    copy_template ctxNone failCompile (.dir [("a", .file "x")])
        ⟨true, [(["keep"], .file "k")]⟩ ["["] .Strict []
      = (⟨true, [(["keep"], .file "k")]⟩, .error .invalidPattern) :=
  C3_invalid_pattern_no_entry_writes ctxNone failCompile (.dir [("a", .file "x")])
    ⟨true, [(["keep"], .file "k")]⟩ ["["] .Strict [] rfl rfl

/-- C2 counterexample: a `cmd_init` call on a non-empty target whose
template carries a failing pre-init hook fails with the hook error, not
`TargetNotEmpty` — the hook runs before the Strict emptiness check. -/
theorem C2_counterexample :
    (Fs.entries ⟨true, [(["x"], .file "y")]⟩ ≠ []) ∧
    cmd_init envHookFails Config.new regHookedStrict "t" ⟨true, [(["x"], .file "y")]⟩
        none none [] = (⟨true, [(["x"], .file "y")]⟩, .error .hookFailed) ∧
    CmdError.hookFailed ≠ CmdError.targetNotEmpty := by
  refine ⟨by simp, rfl, by simp⟩

/-- C2 amended: when the template is registered and resolves to a
directory, the target is present, not dangerous, and the template has no
pre-init hook, a Strict-mode `cmd_init` against a non-empty target fails
with `TargetNotEmpty` and performs zero writes. -/
theorem C2_strict_nonempty_guard (env : InitEnv) (config : Config) (registry : Registry)
    (template_name : String) (target : Fs) (git_flag : Option GitMode)
    (write_mode_flag : Option WriteMode) (answers : List FileChoice)
    (template : Template) (template_path : FsTree)
    (hget : registry.get template_name = some template)
    (hresolve : env.resolve_template_path = .ok (some template_path))
    (hdir : template_path.is_dir = true)
    (hdang : env.dangerous = false)
    (hpre : template.pre_init = none)
    (hwm : (ResolvedOptions.build config template git_flag write_mode_flag).write_mode
      = .Strict)
    (hroot : target.rootExists = true)
    (hne : target.entries ≠ []) :
    cmd_init env config registry template_name target git_flag write_mode_flag answers
      = (target, .error .targetNotEmpty) := by
  have hpre' : (ResolvedOptions.build config template git_flag write_mode_flag).pre_init
      = none := hpre
  have hempty : is_dir_empty target = false := by
    simp [is_dir_empty, List.isEmpty_iff, hne]
  simp [cmd_init, hget, hresolve, hdir, hdang, hroot, hpre', hwm, hempty]

/-- Witness for C2 amended at a concrete non-empty target. -/
theorem C2_strict_nonempty_witness :
    cmd_init envBadPattern Config.new { version := 2, templates := [tmplSample] } "t"
        ⟨true, [(["x"], .file "y")]⟩ none (some .Strict) []
      = (⟨true, [(["x"], .file "y")]⟩, .error .targetNotEmpty) :=
  C2_strict_nonempty_guard envBadPattern Config.new
    { version := 2, templates := [tmplSample] } "t" ⟨true, [(["x"], .file "y")]⟩
    none (some .Strict) [] tmplSample (.dir [("a", .file "x")])
    rfl rfl rfl rfl rfl rfl rfl (by simp)

/-- C1 counterexample: a source directory entry whose destination path
already exists is not a collision for the `NoOverwrite` pre-flight
(`collect_collisions` skips directory entries), so `copy_template`
returns success instead of the claimed error. -/
theorem C1_counterexample :
    (Fs.lookup ⟨true, [(["d"], .dir)]⟩ ["d"]).isSome = true ∧
    (["d"], FsTree.dir []) ∈
      FsTree.walk (fun q => should_skip_entry q (fun _ => false)) []
        (.dir [("d", .dir [])]) ∧
    (copy_template ctxNone litCompile (.dir [("d", .dir [])])
        ⟨true, [(["d"], .dir)]⟩ [] .NoOverwrite []).2 = .ok () :=
  ⟨rfl, List.mem_singleton_self _, rfl⟩

/-- C1 amended: in `NoOverwrite` mode, when any non-excluded
non-directory source entry's destination path already exists,
`copy_template` fails with `FilesWouldBeOverwritten` carrying the full
collision list and leaves the destination entries untouched; the
collision list holds exactly the destination paths of the walked
non-directory entries that already exist.  (Directory entries are
exempt: see the counterexample.) -/
theorem C1_preflight_all_or_nothing (ctx : CopyCtx)
    (compile : List String → Option GlobSet) (source : FsTree) (fs : Fs)
    (exclude : List String) (answers : List FileChoice) (globset : GlobSet)
    (hsrc : source.is_dir = true) (hcompile : compile exclude = some globset)
    (hne : collect_collisions source { fs with rootExists := true } globset ≠ []) :
    copy_template ctx compile source fs exclude .NoOverwrite answers
      = ({ fs with rootExists := true },
         .error (.filesWouldBeOverwritten
           (collect_collisions source { fs with rootExists := true } globset))) ∧
    ∀ p, p ∈ collect_collisions source { fs with rootExists := true } globset ↔
      ∃ t, (p, t) ∈ source.walk (fun q => should_skip_entry q globset) [] ∧
        t.is_dir = false ∧ (fs.lookup p).isSome = true := by
  constructor
  · simp [copy_template, hsrc, hcompile, hne]
  · intro p
    simp only [collect_collisions, List.mem_map, List.mem_filter]
    constructor
    · rintro ⟨⟨q, t⟩, ⟨hw, hpred⟩, rfl⟩
      simp only [Bool.and_eq_true, Bool.not_eq_true'] at hpred
      exact ⟨t, hw, hpred.1, hpred.2⟩
    · rintro ⟨t, hw, hdir, hex⟩
      refine ⟨(p, t), ⟨hw, ?_⟩, rfl⟩
      simp only [Bool.and_eq_true, Bool.not_eq_true']
      exact ⟨hdir, hex⟩

/-- Witness for C1 amended: one colliding file. -/
theorem C1_preflight_witness :
    copy_template ctxNone litCompile (.dir [("f", .file "new")])
        ⟨true, [(["f"], .file "old")]⟩ [] .NoOverwrite []
      = (⟨true, [(["f"], .file "old")]⟩,
         .error (.filesWouldBeOverwritten [["f"]])) :=
  ((C1_preflight_all_or_nothing ctxNone litCompile (.dir [("f", .file "new")])
    ⟨true, [(["f"], .file "old")]⟩ [] [] (gsLit []) rfl rfl (by decide)).1).trans rfl

/-- C7: starting from an empty destination, after `copy_template` no
destination path whose full relative path matches a pattern, none having
a component that matches a pattern, and no `.git` path appears under the
destination (`should_skip_entry` bundles exactly these three checks). -/
theorem C7_exclusion (ctx : CopyCtx) (compile : List String → Option GlobSet)
    (source : FsTree) (fs : Fs) (exclude : List String) (write_mode : WriteMode)
    (answers : List FileChoice) (globset : GlobSet)
    (hcompile : compile exclude = some globset) (hempty : fs.entries = []) :
    ∀ e ∈ (copy_template ctx compile source fs exclude write_mode answers).1.entries,
      should_skip_entry e.1 globset = false := by
  have hgood : GoodFs (fun q => should_skip_entry q globset)
      (copy_template ctx compile source fs exclude write_mode answers).1 := by
    rw [copy_template]
    by_cases hsrc : source.is_dir
    · rw [if_neg (by simp [hsrc])]
      dsimp only
      rw [hcompile]
      dsimp only
      by_cases hno : write_mode = .NoOverwrite ∧
          collect_collisions source { fs with rootExists := true } globset ≠ []
      · rw [if_pos hno]
        intro e he
        simp only at he
        rw [hempty] at he
        cases he
      · rw [if_neg hno]
        dsimp only
        refine goodFs_runEntries (fun q => should_skip_entry q globset) ctx _ _ ?_ ?_
        · intro e he
          simp only at he
          rw [hempty] at he
          cases he
        · rw [walk_eq_walkList]
          exact walkList_chain _ [] source.children (by intro i hi; simp at hi)
    · rw [if_pos (by simp [hsrc])]
      intro e he
      simp only at he
      rw [hempty] at he
      cases he
  intro e he
  obtain ⟨hne, hch⟩ := hgood e he
  have hlen : e.1.length ≠ 0 := by simpa [List.length_eq_zero] using hne
  have hskip := hch (e.1.length - 1) (by omega)
  rwa [Nat.sub_add_cancel (by omega), List.take_length] at hskip

/-- Witness for C7 on a concrete copy with one excluded sibling. -/
theorem C7_exclusion_witness :
    should_skip_entry ["a"] (gsLit ["b"]) = false :=
  C7_exclusion ctxNone litCompile (.dir [("a", .file "x"), ("b", .file "y")])
    ⟨false, []⟩ ["b"] .Strict [] (gsLit ["b"]) rfl rfl (["a"], DNode.file "x")
    (List.mem_singleton_self _)

/-- C9: the tree copier skips any entry whose relative path contains a
`.git` component at any depth, for every glob set, including the empty
exclusion list: `should_skip_entry` returns true on such paths, and no
walked entry path contains `.git`. -/
theorem C9_git_excluded_any_depth :
    (∀ (globset : GlobSet) (rel : RelPath), ".git" ∈ rel →
      should_skip_entry rel globset = true) ∧
    (∀ (globset : GlobSet) (source : FsTree) (e : RelPath × FsTree),
      e ∈ source.walk (fun q => should_skip_entry q globset) [] → ".git" ∉ e.1) := by
  constructor
  · intro gs rel hmem
    simp only [should_skip_entry, Bool.or_eq_true, List.any_eq_true]
    exact Or.inl ⟨".git", hmem, by simp⟩
  · intro gs source e he hmem
    have hch : ChainOk (fun q => should_skip_entry q gs) e.1 := by
      rw [walk_eq_walkList] at he
      exact walkList_chain _ [] source.children (by intro i hi; simp at hi) e he
    obtain ⟨hne, hch2⟩ := hch
    have hlen : e.1.length ≠ 0 := by simpa [List.length_eq_zero] using hne
    have hskip := hch2 (e.1.length - 1) (by omega)
    rw [Nat.sub_add_cancel (by omega), List.take_length] at hskip
    have htrue : should_skip_entry e.1 gs = true := by
      simp only [should_skip_entry, Bool.or_eq_true, List.any_eq_true]
      exact Or.inl ⟨".git", hmem, by simp⟩
    simp only [htrue] at hskip
    cases hskip

/-- Witness for C9: a nested `.git` path is skipped under the empty glob
set, and a walked entry of a concrete tree carries no `.git`. -/
theorem C9_git_excluded_witness :
    should_skip_entry ["a", ".git", "b"] (gsLit []) = true ∧
    ".git" ∉ (["a"] : RelPath) :=
  ⟨C9_git_excluded_any_depth.1 (gsLit []) ["a", ".git", "b"] (by simp),
   C9_git_excluded_any_depth.2 (gsLit []) (.dir [("a", .file "x")]) (["a"], .file "x")
     (List.mem_singleton_self _)⟩

/-- The common prefix length never exceeds the left length. -/
theorem commonLen_le_left : ∀ (a b : List String), commonLen a b ≤ a.length := by
  intro a
  induction a with
  | nil => intro b; simp [commonLen]
  | cons x xs ih =>
    intro b
    cases b with
    | nil => simp [commonLen]
    | cons y ys =>
      rw [commonLen]
      split
      · have := ih ys; simp; omega
      · simp

/-- The common prefix length never exceeds the right length. -/
theorem commonLen_le_right : ∀ (a b : List String), commonLen a b ≤ b.length := by
  intro a
  induction a with
  | nil => intro b; simp [commonLen]
  | cons x xs ih =>
    intro b
    cases b with
    | nil => simp [commonLen]
    | cons y ys =>
      rw [commonLen]
      split
      · have := ih ys; simp; omega
      · simp

/-- Both paths agree on their common prefix. -/
theorem commonLen_take : ∀ (a b : List String),
    a.take (commonLen a b) = b.take (commonLen a b) := by
  intro a
  induction a with
  | nil => intro b; simp [commonLen]
  | cons x xs ih =>
    intro b
    cases b with
    | nil => simp [commonLen]
    | cons y ys =>
      rw [commonLen]
      split
      next h => rw [List.take_succ_cons, List.take_succ_cons, h, ih ys]
      next => simp

/-- Folding the normalization step over clean components appends them. -/
theorem foldl_norm_clean : ∀ (l : List String), cleanComps l → ∀ acc : List String,
    l.foldl
      (fun acc c => if c = "." then acc else if c = ".." then acc.dropLast else acc ++ [c])
      acc = acc ++ l := by
  intro l
  induction l with
  | nil => intro _ acc; simp
  | cons c l ih =>
    intro hl acc
    have hc := hl c (List.mem_cons_self _ _)
    simp only [List.foldl_cons]
    rw [if_neg hc.1, if_neg hc.2]
    rw [ih (fun d hd => hl d (List.mem_cons_of_mem _ hd)) (acc ++ [c])]
    simp

/-- Folding the normalization step over `..` segments drops from the
right. -/
theorem foldl_norm_dotdot : ∀ (n : Nat) (acc : List String),
    (List.replicate n "..").foldl
      (fun acc c => if c = "." then acc else if c = ".." then acc.dropLast else acc ++ [c])
      acc = acc.take (acc.length - n) := by
  intro n
  induction n with
  | zero => intro acc; simp
  | succ n ih =>
    intro acc
    rw [List.replicate_succ]
    show (List.replicate n "..").foldl
      (fun acc c => if c = "." then acc else if c = ".." then acc.dropLast else acc ++ [c])
      acc.dropLast = acc.take (acc.length - (n + 1))
    rw [ih acc.dropLast]
    rw [List.dropLast_eq_take, List.length_take, List.take_take]
    congr 1
    omega

/-- The `..`-prefixed relative path computed by `relative_path_between`
resolves, from the `from` directory, exactly to the `to` path, for
canonical (dot-free) inputs. -/
theorem relative_path_between_resolves (f t : List String)
    (hf : cleanComps f) (ht : cleanComps t) :
    resolveRel f (relative_path_between f t) = t := by
  have hnf : f.foldl
      (fun acc c => if c = "." then acc else if c = ".." then acc.dropLast else acc ++ [c])
      [] = f := by
    have h := foldl_norm_clean f hf []
    simpa using h
  rw [relative_path_between]
  split
  next hres =>
    rw [List.append_eq_nil] at hres
    obtain ⟨h1, h2⟩ := hres
    rw [List.replicate_eq_nil] at h1
    rw [List.drop_eq_nil_iff] at h2
    have hlf := commonLen_le_left f t
    have hlt := commonLen_le_right f t
    have hkf : commonLen f t = f.length := by omega
    have h3 := commonLen_take f t
    rw [hkf, List.take_length] at h3
    have hflen : f.length = t.length := by omega
    rw [hflen, List.take_length] at h3
    rw [resolveRel, normComps, List.foldl_append]
    show List.foldl
      (fun acc c => if c = "." then acc else if c = ".." then acc.dropLast else acc ++ [c])
      [] f = t
    rw [hnf]
    exact h3
  next hres =>
    have hlf := commonLen_le_left f t
    rw [resolveRel, normComps, List.foldl_append, List.foldl_append]
    rw [hnf]
    rw [foldl_norm_dotdot]
    have hk : f.length - (f.length - commonLen f t) = commonLen f t := by omega
    rw [hk]
    rw [foldl_norm_clean (t.drop (commonLen f t))
      (fun c hc => ht c ((List.drop_sublist _ _).subset hc))]
    rw [commonLen_take f t]
    exact List.take_append_drop _ t

/-- C5: the symlink target rewrite of `copy_symlink`: (1) a relative raw
target resolving inside the source root is written byte-identically;
(2) an absolute raw target resolving inside the source root becomes a
relative path from the destination link's parent that resolves to the
corresponding location under the destination root; (3)/(4) a target
resolving outside the source root is written as its canonical absolute
path; (5) an unresolvable (broken) target is written unchanged, and the
computation never fails. -/
theorem C5_symlink_rewrite (ctx : CopyCtx) (p : RelPath) :
    (∀ (comps canonical_target canonical_source target_rel : List String),
      ctx.canon ((ctx.sourceRoot ++ p.dropLast) ++ comps) = some canonical_target →
      ctx.canon ctx.sourceRoot = some canonical_source →
      stripPre canonical_source canonical_target = some target_rel →
      symlinkNewTarget ctx p (.rel comps) = .rel comps) ∧
    (∀ (comps canonical_target canonical_source target_rel : List String),
      ctx.canon comps = some canonical_target →
      ctx.canon ctx.sourceRoot = some canonical_source →
      stripPre canonical_source canonical_target = some target_rel →
      cleanComps (ctx.destRoot ++ p.dropLast) →
      cleanComps (ctx.destRoot ++ target_rel) →
      symlinkNewTarget ctx p (.abs comps)
        = .rel (relative_path_between (ctx.destRoot ++ p.dropLast)
            (ctx.destRoot ++ target_rel)) ∧
      resolveRel (ctx.destRoot ++ p.dropLast)
        (relative_path_between (ctx.destRoot ++ p.dropLast) (ctx.destRoot ++ target_rel))
        = ctx.destRoot ++ target_rel) ∧
    (∀ (comps canonical_target canonical_source : List String),
      ctx.canon comps = some canonical_target →
      ctx.canon ctx.sourceRoot = some canonical_source →
      stripPre canonical_source canonical_target = none →
      symlinkNewTarget ctx p (.abs comps) = .abs canonical_target) ∧
    (∀ (comps canonical_target canonical_source : List String),
      ctx.canon ((ctx.sourceRoot ++ p.dropLast) ++ comps) = some canonical_target →
      ctx.canon ctx.sourceRoot = some canonical_source →
      stripPre canonical_source canonical_target = none →
      symlinkNewTarget ctx p (.rel comps) = .abs canonical_target) ∧
    (∀ (raw_target : RPath),
      ctx.canon (match raw_target with
        | .abs comps => comps
        | .rel comps => (ctx.sourceRoot ++ p.dropLast) ++ comps) = none →
      symlinkNewTarget ctx p raw_target = raw_target) := by
  refine ⟨?_, ?_, ?_, ?_, ?_⟩
  · intro comps ct cs tr hcanon hsrc hstrip
    have hcanon' : ctx.canon (ctx.sourceRoot ++ (p.dropLast ++ comps)) = some ct := by
      rwa [← List.append_assoc]
    simp [symlinkNewTarget, hcanon', hsrc, hstrip, RPath.is_relative]
  · intro comps ct cs tr hcanon hsrc hstrip hclean1 hclean2
    constructor
    · simp [symlinkNewTarget, hcanon, hsrc, hstrip, RPath.is_relative]
    · exact relative_path_between_resolves _ _ hclean1 hclean2
  · intro comps ct cs hcanon hsrc hstrip
    simp [symlinkNewTarget, hcanon, hsrc, hstrip]
  · intro comps ct cs hcanon hsrc hstrip
    have hcanon' : ctx.canon (ctx.sourceRoot ++ (p.dropLast ++ comps)) = some ct := by
      rwa [← List.append_assoc]
    simp [symlinkNewTarget, hcanon', hsrc, hstrip, RPath.is_relative]
  · intro raw_target hcanon
    cases raw_target with
    | abs comps => simp only at hcanon; simp [symlinkNewTarget, hcanon]
    | rel comps =>
      simp only at hcanon
      have hcanon' : ctx.canon (ctx.sourceRoot ++ (p.dropLast ++ comps)) = none := by
        rwa [← List.append_assoc]
      simp [symlinkNewTarget, hcanon']

/-- Witness for C5: all four target cases at a concrete canonicalizer
with source root `src` and destination root `dst`. -/
theorem C5_symlink_rewrite_witness :
    symlinkNewTarget
      ⟨fun q => if q = ["src"] then some ["src"]
        else if q = ["src", "file.txt"] then some ["src", "file.txt"]
        else if q = ["ext", "f"] then some ["ext", "f"] else none,
       ["src"], ["dst"]⟩ ["link.txt"] (.rel ["file.txt"]) = .rel ["file.txt"] ∧
    symlinkNewTarget
      ⟨fun q => if q = ["src"] then some ["src"]
        else if q = ["src", "file.txt"] then some ["src", "file.txt"]
        else if q = ["ext", "f"] then some ["ext", "f"] else none,
       ["src"], ["dst"]⟩ ["link.txt"] (.abs ["src", "file.txt"]) = .rel ["file.txt"] ∧
    resolveRel ["dst"] ["file.txt"] = ["dst", "file.txt"] ∧
    symlinkNewTarget
      ⟨fun q => if q = ["src"] then some ["src"]
        else if q = ["src", "file.txt"] then some ["src", "file.txt"]
        else if q = ["ext", "f"] then some ["ext", "f"] else none,
       ["src"], ["dst"]⟩ ["link.txt"] (.abs ["ext", "f"]) = .abs ["ext", "f"] ∧
    symlinkNewTarget
      ⟨fun q => if q = ["src"] then some ["src"]
        else if q = ["src", "file.txt"] then some ["src", "file.txt"]
        else if q = ["ext", "f"] then some ["ext", "f"] else none,
       ["src"], ["dst"]⟩ ["link.txt"] (.rel ["missing"]) = .rel ["missing"] := by
  refine ⟨?_, ?_, ?_, ?_, ?_⟩
  · exact (C5_symlink_rewrite _ ["link.txt"]).1 ["file.txt"] ["src", "file.txt"] ["src"]
      ["file.txt"] rfl rfl rfl
  · exact ((C5_symlink_rewrite _ ["link.txt"]).2.1 ["src", "file.txt"] ["src", "file.txt"]
      ["src"] ["file.txt"] rfl rfl rfl (by unfold cleanComps; decide)
      (by unfold cleanComps; decide)).1
  · exact ((C5_symlink_rewrite
        ⟨fun q => if q = ["src"] then some ["src"]
          else if q = ["src", "file.txt"] then some ["src", "file.txt"]
          else if q = ["ext", "f"] then some ["ext", "f"] else none,
         ["src"], ["dst"]⟩ ["link.txt"]).2.1 ["src", "file.txt"] ["src", "file.txt"]
      ["src"] ["file.txt"] rfl rfl rfl (by unfold cleanComps; decide)
      (by unfold cleanComps; decide)).2
  · exact (C5_symlink_rewrite _ ["link.txt"]).2.2.1 ["ext", "f"] ["ext", "f"] ["src"]
      rfl rfl rfl
  · exact (C5_symlink_rewrite _ ["link.txt"]).2.2.2.2 (.rel ["missing"]) rfl

/-- The file-write tail carries its mode and answers verbatim. -/
theorem doFileWrite_mode_answers (fs : Fs) (p : RelPath) (content : String)
    (m : WriteMode) (a : List FileChoice) :
    (doFileWrite fs p content m a).1.copy_mode = m ∧
    (doFileWrite fs p content m a).1.answers = a := by
  rw [doFileWrite]
  cases fs.writeFile p content <;> exact ⟨rfl, rfl⟩

/-- The link-write tail carries its mode and answers verbatim. -/
theorem doLinkWrite_mode_answers (ctx : CopyCtx) (fs : Fs) (p : RelPath)
    (raw_target : RPath) (m : WriteMode) (a : List FileChoice) :
    (doLinkWrite ctx fs p raw_target m a).1.copy_mode = m ∧
    (doLinkWrite ctx fs p raw_target m a).1.answers = a := by
  rw [doLinkWrite]
  cases fs.writeLink p (symlinkNewTarget ctx p raw_target) <;> exact ⟨rfl, rfl⟩

/-- Outside `Ask` mode, one copy step never changes the session mode and
never consumes an answer. -/
theorem copyStep_mode_answers (ctx : CopyCtx) (st : CopySt) (p : RelPath) (t : FsTree)
    (h : st.copy_mode ≠ .Ask) :
    (copyStep ctx st p t).1.copy_mode = st.copy_mode ∧
    (copyStep ctx st p t).1.answers = st.answers := by
  cases t with
  | link raw_target =>
    rw [copyStep]
    cases hcd : st.fs.createDirAll p.dropLast with
    | error e => exact ⟨rfl, rfl⟩
    | ok fs1 =>
      dsimp only
      by_cases hex : fs1.symlinkMetadataOk p
      · rw [if_pos hex]
        cases hm : st.copy_mode with
        | Ask => exact absurd hm h
        | SkipOverwrite => exact ⟨rfl, rfl⟩
        | Strict =>
          dsimp only
          cases hrm : fs1.removeFile p with
          | error e => exact ⟨rfl, rfl⟩
          | ok fs2 =>
            rw [← hm]
            exact doLinkWrite_mode_answers ctx fs2 p raw_target st.copy_mode st.answers
        | Overwrite =>
          dsimp only
          cases hrm : fs1.removeFile p with
          | error e => exact ⟨rfl, rfl⟩
          | ok fs2 =>
            rw [← hm]
            exact doLinkWrite_mode_answers ctx fs2 p raw_target st.copy_mode st.answers
        | NoOverwrite =>
          dsimp only
          cases hrm : fs1.removeFile p with
          | error e => exact ⟨rfl, rfl⟩
          | ok fs2 =>
            rw [← hm]
            exact doLinkWrite_mode_answers ctx fs2 p raw_target st.copy_mode st.answers
      · rw [if_neg hex]
        exact doLinkWrite_mode_answers ctx fs1 p raw_target st.copy_mode st.answers
  | dir children =>
    rw [copyStep]
    cases hcd : st.fs.createDirAll p with
    | error e => exact ⟨rfl, rfl⟩
    | ok fs1 => exact ⟨rfl, rfl⟩
  | file content =>
    rw [copyStep]
    cases hcd : st.fs.createDirAll p.dropLast with
    | error e => exact ⟨rfl, rfl⟩
    | ok fs1 =>
      dsimp only
      by_cases hex : fs1.pathExists p
      · rw [if_pos hex]
        cases hm : st.copy_mode with
        | Ask => exact absurd hm h
        | SkipOverwrite => exact ⟨rfl, rfl⟩
        | Strict =>
          dsimp only
          rw [← hm]
          exact doFileWrite_mode_answers fs1 p content st.copy_mode st.answers
        | Overwrite =>
          dsimp only
          rw [← hm]
          exact doFileWrite_mode_answers fs1 p content st.copy_mode st.answers
        | NoOverwrite =>
          dsimp only
          rw [← hm]
          exact doFileWrite_mode_answers fs1 p content st.copy_mode st.answers
      · rw [if_neg hex]
        exact doFileWrite_mode_answers fs1 p content st.copy_mode st.answers

/-- Outside `Ask` mode, the whole loop never changes the session mode
and never consumes an answer. -/
theorem runEntries_mode_answers (ctx : CopyCtx) :
    ∀ (entries : List (RelPath × FsTree)) (st : CopySt), st.copy_mode ≠ .Ask →
      (runEntries ctx entries st).1.copy_mode = st.copy_mode ∧
      (runEntries ctx entries st).1.answers = st.answers := by
  intro entries
  induction entries with
  | nil => intro st h; exact ⟨rfl, rfl⟩
  | cons e rest ih =>
    intro st h
    obtain ⟨p, t⟩ := e
    rw [runEntries]
    have hsm := copyStep_mode_answers ctx st p t h
    cases hs : copyStep ctx st p t with
    | mk st2 err =>
      rw [hs] at hsm
      cases err with
      | none =>
        have hrec := ih st2 (fun hc => h (hsm.1 ▸ hc))
        exact ⟨hrec.1.trans hsm.1, hrec.2.trans hsm.2⟩
      | some e' => exact hsm

/-- One copy step either keeps the session mode or, in `Ask` mode,
escalates it to `Overwrite` or `SkipOverwrite`. -/
theorem copyStep_mode_cases (ctx : CopyCtx) (st : CopySt) (p : RelPath) (t : FsTree) :
    (copyStep ctx st p t).1.copy_mode = st.copy_mode ∨
    (st.copy_mode = .Ask ∧ ((copyStep ctx st p t).1.copy_mode = .Overwrite ∨
      (copyStep ctx st p t).1.copy_mode = .SkipOverwrite)) := by
  by_cases h : st.copy_mode = .Ask
  · cases t with
    | link raw_target =>
      rw [copyStep]
      cases hcd : st.fs.createDirAll p.dropLast with
      | error e => exact Or.inl rfl
      | ok fs1 =>
        dsimp only
        by_cases hex : fs1.symlinkMetadataOk p
        · rw [if_pos hex, h]
          dsimp only
          cases hans : st.answers with
          | nil => exact Or.inl rfl
          | cons choice rest =>
            cases choice with
            | Overwrite =>
              exact Or.inl ((doLinkWrite_mode_answers ctx _ p raw_target _ rest).1)
            | Skip => exact Or.inl rfl
            | OverwriteAll =>
              exact Or.inr ⟨rfl,
                Or.inl (doLinkWrite_mode_answers ctx _ p raw_target .Overwrite rest).1⟩
            | SkipAll => exact Or.inr ⟨rfl, Or.inr rfl⟩
            | Abort => exact Or.inl rfl
        · rw [if_neg hex]
          exact Or.inl ((doLinkWrite_mode_answers ctx fs1 p raw_target _ _).1)
    | dir children =>
      rw [copyStep]
      cases hcd : st.fs.createDirAll p with
      | error e => exact Or.inl rfl
      | ok fs1 => exact Or.inl rfl
    | file content =>
      rw [copyStep]
      cases hcd : st.fs.createDirAll p.dropLast with
      | error e => exact Or.inl rfl
      | ok fs1 =>
        dsimp only
        by_cases hex : fs1.pathExists p
        · rw [if_pos hex, h]
          dsimp only
          cases hans : st.answers with
          | nil => exact Or.inl rfl
          | cons choice rest =>
            cases choice with
            | Overwrite => exact Or.inl ((doFileWrite_mode_answers fs1 p content _ rest).1)
            | Skip => exact Or.inl rfl
            | OverwriteAll =>
              exact Or.inr ⟨rfl, Or.inl (doFileWrite_mode_answers fs1 p content .Overwrite rest).1⟩
            | SkipAll => exact Or.inr ⟨rfl, Or.inr rfl⟩
            | Abort => exact Or.inl rfl
        · rw [if_neg hex]
          exact Or.inl ((doFileWrite_mode_answers fs1 p content _ _).1)
  · exact Or.inl (copyStep_mode_answers ctx st p t h).1

/-- A loop started in `Ask` mode ends in `Ask`, `Overwrite` or
`SkipOverwrite`, never in any other mode. -/
theorem runEntries_ask_cases (ctx : CopyCtx) :
    ∀ (entries : List (RelPath × FsTree)) (st : CopySt), st.copy_mode = .Ask →
      (runEntries ctx entries st).1.copy_mode = .Ask ∨
      (runEntries ctx entries st).1.copy_mode = .Overwrite ∨
      (runEntries ctx entries st).1.copy_mode = .SkipOverwrite := by
  intro entries
  induction entries with
  | nil => intro st h; exact Or.inl h
  | cons e rest ih =>
    intro st h
    obtain ⟨p, t⟩ := e
    rw [runEntries]
    have hcases := copyStep_mode_cases ctx st p t
    cases hs : copyStep ctx st p t with
    | mk st2 err =>
      rw [hs] at hcases
      cases err with
      | none =>
        rcases hcases with hkeep | ⟨_, hesc⟩
        · exact ih st2 (hkeep.trans h)
        · rcases hesc with hO | hS
          · have := (runEntries_mode_answers ctx rest st2 (by rw [hO]; simp)).1
            rw [this, hO]
            exact Or.inr (Or.inl rfl)
          · have := (runEntries_mode_answers ctx rest st2 (by rw [hS]; simp)).1
            rw [this, hS]
            exact Or.inr (Or.inr rfl)
      | some e' =>
        rcases hcases with hkeep | ⟨_, hesc⟩
        · exact Or.inl (hkeep.trans h)
        · rcases hesc with hO | hS
          · exact Or.inr (Or.inl hO)
          · exact Or.inr (Or.inr hS)

/-- C6: within one copy run, "Overwrite all"/"Skip all" escalate the
session mode to `Overwrite`/`SkipOverwrite`, after which conflicts are
overwritten/skipped without prompting (no answers consumed); a non-`Ask`
session mode never changes, so the mode only ever moves from `Ask` to
one of those two; and a fresh `copy_template` invocation starts the
session at its own `write_mode` argument, so nothing carries over. -/
theorem C6_session_escalation :
    (∀ (ctx : CopyCtx) (entries : List (RelPath × FsTree)) (st : CopySt),
      st.copy_mode ≠ .Ask →
      (runEntries ctx entries st).1.copy_mode = st.copy_mode ∧
      (runEntries ctx entries st).1.answers = st.answers) ∧
    (∀ (ctx : CopyCtx) (entries : List (RelPath × FsTree)) (st : CopySt),
      st.copy_mode = .Ask →
      (runEntries ctx entries st).1.copy_mode = .Ask ∨
      (runEntries ctx entries st).1.copy_mode = .Overwrite ∨
      (runEntries ctx entries st).1.copy_mode = .SkipOverwrite) ∧
    (∀ (ctx : CopyCtx) (st : CopySt) (p : RelPath) (content : String)
        (rest : List FileChoice) (fs1 : Fs) (old : String),
      st.copy_mode = .Ask → st.fs.createDirAll p.dropLast = .ok fs1 →
      fs1.lookup p = some (.file old) → st.answers = .OverwriteAll :: rest →
      copyStep ctx st p (.file content)
        = (⟨fs1.insert p (.file content), .Overwrite, rest⟩, none)) ∧
    (∀ (ctx : CopyCtx) (st : CopySt) (p : RelPath) (content : String)
        (rest : List FileChoice) (fs1 : Fs),
      st.copy_mode = .Ask → st.fs.createDirAll p.dropLast = .ok fs1 →
      fs1.pathExists p = true → st.answers = .SkipAll :: rest →
      copyStep ctx st p (.file content)
        = (⟨fs1, .SkipOverwrite, rest⟩, none)) ∧
    (∀ (ctx : CopyCtx) (compile : List String → Option GlobSet) (source : FsTree)
        (fs : Fs) (exclude : List String) (write_mode : WriteMode)
        (answers : List FileChoice) (globset : GlobSet),
      source.is_dir = true → compile exclude = some globset →
      ¬(write_mode = .NoOverwrite ∧
        collect_collisions source { fs with rootExists := true } globset ≠ []) →
      copy_template ctx compile source fs exclude write_mode answers
        = ((runEntries ctx (source.walk (fun q => should_skip_entry q globset) [])
            ⟨{ fs with rootExists := true }, write_mode, answers⟩).1.fs,
           (runEntries ctx (source.walk (fun q => should_skip_entry q globset) [])
            ⟨{ fs with rootExists := true }, write_mode, answers⟩).2)) := by
  refine ⟨runEntries_mode_answers, runEntries_ask_cases, ?_, ?_, ?_⟩
  · intro ctx st p content rest fs1 old hm hcd hlook hans
    have hex : fs1.pathExists p = true := by
      rw [Fs.pathExists, hlook]
    rw [copyStep, hcd]
    dsimp only
    rw [if_pos hex, hm, hans]
    dsimp only
    rw [doFileWrite, Fs.writeFile, hlook]
  · intro ctx st p content rest fs1 hm hcd hex hans
    rw [copyStep, hcd]
    dsimp only
    rw [if_pos hex, hm, hans]
  · intro ctx compile source fs exclude write_mode answers globset hsrc hcompile hno
    rw [copy_template, if_neg (by simp [hsrc])]
    dsimp only
    rw [hcompile]
    dsimp only
    rw [if_neg hno]

/-- Witness for C6: an `OverwriteAll` answer on a concrete conflict
escalates the session mode and overwrites. -/
theorem C6_session_escalation_witness :
    copyStep ctxNone ⟨⟨true, [(["a"], .file "old")]⟩, .Ask, [.OverwriteAll]⟩ ["a"]
        (.file "new")
      = (⟨Fs.insert ⟨true, [(["a"], .file "old")]⟩ ["a"] (.file "new"), .Overwrite, []⟩,
         none) :=
  C6_session_escalation.2.2.1 ctxNone
    ⟨⟨true, [(["a"], .file "old")]⟩, .Ask, [.OverwriteAll]⟩
    ["a"] "new" [] ⟨true, [(["a"], .file "old")]⟩ "old" rfl rfl rfl rfl

/-- The file-write tail only stores its mode argument, never reads it. -/
theorem doFileWrite_mode_param (fs : Fs) (p : RelPath) (content : String)
    (m m' : WriteMode) (a : List FileChoice) :
    doFileWrite fs p content m a
      = (⟨(doFileWrite fs p content m' a).1.fs, m,
          (doFileWrite fs p content m' a).1.answers⟩,
         (doFileWrite fs p content m' a).2) := by
  rw [doFileWrite, doFileWrite]
  cases fs.writeFile p content <;> rfl

/-- The link-write tail only stores its mode argument, never reads it. -/
theorem doLinkWrite_mode_param (ctx : CopyCtx) (fs : Fs) (p : RelPath)
    (raw_target : RPath) (m m' : WriteMode) (a : List FileChoice) :
    doLinkWrite ctx fs p raw_target m a
      = (⟨(doLinkWrite ctx fs p raw_target m' a).1.fs, m,
          (doLinkWrite ctx fs p raw_target m' a).1.answers⟩,
         (doLinkWrite ctx fs p raw_target m' a).2) := by
  rw [doLinkWrite, doLinkWrite]
  cases fs.writeLink p (symlinkNewTarget ctx p raw_target) <;> rfl

/-- A `Strict`-mode copy step is the `Overwrite`-mode step with the
stored mode renamed: both take the same conflict arms. -/
theorem copyStep_strict_overwrite (ctx : CopyCtx) (fs : Fs) (ans : List FileChoice)
    (p : RelPath) (t : FsTree) :
    copyStep ctx ⟨fs, .Strict, ans⟩ p t
      = (⟨(copyStep ctx ⟨fs, .Overwrite, ans⟩ p t).1.fs, .Strict,
          (copyStep ctx ⟨fs, .Overwrite, ans⟩ p t).1.answers⟩,
         (copyStep ctx ⟨fs, .Overwrite, ans⟩ p t).2) := by
  cases t with
  | link raw_target =>
    rw [copyStep, copyStep]
    dsimp only
    cases hcd : fs.createDirAll p.dropLast with
    | error e => rfl
    | ok fs1 =>
      dsimp only
      by_cases hex : fs1.symlinkMetadataOk p
      · rw [if_pos hex, if_pos hex]
        cases hrm : fs1.removeFile p with
        | error e => rfl
        | ok fs2 => exact doLinkWrite_mode_param ctx fs2 p raw_target .Strict .Overwrite ans
      · rw [if_neg hex, if_neg hex]
        exact doLinkWrite_mode_param ctx fs1 p raw_target .Strict .Overwrite ans
  | dir children =>
    rw [copyStep, copyStep]
    dsimp only
    cases hcd : fs.createDirAll p with
    | error e => rfl
    | ok fs1 => rfl
  | file content =>
    rw [copyStep, copyStep]
    dsimp only
    cases hcd : fs.createDirAll p.dropLast with
    | error e => rfl
    | ok fs1 =>
      dsimp only
      by_cases hex : fs1.pathExists p
      · rw [if_pos hex, if_pos hex]
        exact doFileWrite_mode_param fs1 p content .Strict .Overwrite ans
      · rw [if_neg hex, if_neg hex]
        exact doFileWrite_mode_param fs1 p content .Strict .Overwrite ans

/-- A `Strict`-mode copy loop is the `Overwrite`-mode loop with the
stored mode renamed. -/
theorem runEntries_strict_overwrite (ctx : CopyCtx) :
    ∀ (entries : List (RelPath × FsTree)) (fs : Fs) (ans : List FileChoice),
      runEntries ctx entries ⟨fs, .Strict, ans⟩
        = (⟨(runEntries ctx entries ⟨fs, .Overwrite, ans⟩).1.fs, .Strict,
            (runEntries ctx entries ⟨fs, .Overwrite, ans⟩).1.answers⟩,
           (runEntries ctx entries ⟨fs, .Overwrite, ans⟩).2) := by
  intro entries
  induction entries with
  | nil => intro fs ans; rfl
  | cons e rest ih =>
    intro fs ans
    obtain ⟨p, t⟩ := e
    rw [runEntries, runEntries]
    have hstep := copyStep_strict_overwrite ctx fs ans p t
    cases hsO : copyStep ctx ⟨fs, .Overwrite, ans⟩ p t with
    | mk stO err =>
      obtain ⟨fsO, mO, ansO⟩ := stO
      have hmode : mO = .Overwrite := by
        have h := (copyStep_mode_answers ctx ⟨fs, .Overwrite, ans⟩ p t (by simp)).1
        rw [hsO] at h
        exact h
      subst hmode
      rw [hsO] at hstep
      rw [hstep]
      cases err with
      | none => exact ih fsO ansO
      | some e' => rfl

/-- Lookup after removal of the same path misses. -/
theorem lookup_removeEntry_self (fs : Fs) (p : RelPath) :
    (fs.removeEntry p).lookup p = none := by
  rw [Fs.removeEntry, Fs.lookup]
  dsimp only
  have h : (fs.entries.filter (fun e => !(e.1 == p))).find? (fun e => e.1 == p) = none := by
    apply List.find?_eq_none.mpr
    intro x hx
    have hmem := (List.mem_filter.mp hx).2
    simp only [Bool.not_eq_true'] at hmem
    simp [hmem]
  rw [h]
  rfl

/-- C10: calling `copy_template` directly in `Strict` mode behaves, per
conflict, exactly like `Overwrite` mode — the whole call returns the
same destination and result; an existing destination file is overwritten
in place, and an existing destination symlink is removed and replaced.
(No emptiness precondition exists inside `copy_template`: that guard
lives in `cmd_init`.) -/
theorem C10_strict_inside_copy :
    (∀ (ctx : CopyCtx) (compile : List String → Option GlobSet) (source : FsTree)
        (fs : Fs) (exclude : List String) (answers : List FileChoice),
      copy_template ctx compile source fs exclude .Strict answers
        = copy_template ctx compile source fs exclude .Overwrite answers) ∧
    (∀ (ctx : CopyCtx) (st : CopySt) (p : RelPath) (content : String)
        (fs1 : Fs) (old : String),
      st.copy_mode = .Strict → st.fs.createDirAll p.dropLast = .ok fs1 →
      fs1.lookup p = some (.file old) →
      copyStep ctx st p (.file content)
        = (⟨fs1.insert p (.file content), .Strict, st.answers⟩, none)) ∧
    (∀ (ctx : CopyCtx) (st : CopySt) (p : RelPath) (raw_target : RPath)
        (fs1 : Fs) (tgt : RPath),
      st.copy_mode = .Strict → st.fs.createDirAll p.dropLast = .ok fs1 →
      fs1.lookup p = some (.link tgt) →
      copyStep ctx st p (.link raw_target)
        = (⟨(fs1.removeEntry p).insert p (.link (symlinkNewTarget ctx p raw_target)),
            .Strict, st.answers⟩, none)) := by
  refine ⟨?_, ?_, ?_⟩
  · intro ctx compile source fs exclude answers
    rw [copy_template, copy_template]
    by_cases hsrc : source.is_dir
    · rw [if_neg (by simp [hsrc]), if_neg (by simp [hsrc])]
      dsimp only
      cases hcompile : compile exclude with
      | none => rfl
      | some globset =>
        dsimp only
        rw [if_neg (by simp), if_neg (by simp)]
        rw [runEntries_strict_overwrite]
    · rw [if_pos (by simp [hsrc]), if_pos (by simp [hsrc])]
  · intro ctx st p content fs1 old hm hcd hlook
    have hex : fs1.pathExists p = true := by
      rw [Fs.pathExists, hlook]
    rw [copyStep, hcd]
    dsimp only
    rw [if_pos hex, hm]
    dsimp only
    rw [doFileWrite, Fs.writeFile, hlook]
  · intro ctx st p raw_target fs1 tgt hm hcd hlook
    have hex : fs1.symlinkMetadataOk p = true := by
      rw [Fs.symlinkMetadataOk, hlook]
      rfl
    have hrm : fs1.removeFile p = .ok (fs1.removeEntry p) := by
      rw [Fs.removeFile, hlook]
    rw [copyStep, hcd]
    dsimp only
    rw [if_pos hex, hm]
    dsimp only
    rw [hrm]
    dsimp only
    rw [doLinkWrite, Fs.writeLink, lookup_removeEntry_self]
    rfl

/-- Witness for C10: a conflicting file and a conflicting symlink under
`Strict`, overwritten exactly as `Overwrite` would. -/
theorem C10_strict_inside_copy_witness :
    copy_template ctxNone litCompile (.dir [("f", .file "new")])
        ⟨true, [(["f"], .file "old")]⟩ [] .Strict []
      = copy_template ctxNone litCompile (.dir [("f", .file "new")])
          ⟨true, [(["f"], .file "old")]⟩ [] .Overwrite [] ∧
    copyStep ctxNone ⟨⟨true, [(["f"], .file "old")]⟩, .Strict, []⟩ ["f"] (.file "new")
      = (⟨Fs.insert ⟨true, [(["f"], .file "old")]⟩ ["f"] (.file "new"), .Strict, []⟩,
         none) ∧
    copyStep ctxNone ⟨⟨true, [(["l"], .link (.rel ["x"]))]⟩, .Strict, []⟩ ["l"]
        (.link (.rel ["y"]))
      = (⟨Fs.insert (Fs.removeEntry ⟨true, [(["l"], .link (.rel ["x"]))]⟩ ["l"]) ["l"]
            (.link (symlinkNewTarget ctxNone ["l"] (.rel ["y"]))), .Strict, []⟩,
         none) :=
  ⟨C10_strict_inside_copy.1 ctxNone litCompile (.dir [("f", .file "new")])
      ⟨true, [(["f"], .file "old")]⟩ [] [],
   C10_strict_inside_copy.2.1 ctxNone ⟨⟨true, [(["f"], .file "old")]⟩, .Strict, []⟩
      ["f"] "new" ⟨true, [(["f"], .file "old")]⟩ "old" rfl rfl rfl,
   C10_strict_inside_copy.2.2 ctxNone ⟨⟨true, [(["l"], .link (.rel ["x"]))]⟩, .Strict, []⟩
      ["l"] (.rel ["y"]) ⟨true, [(["l"], .link (.rel ["x"]))]⟩ (.rel ["x"]) rfl rfl rfl⟩

end Templative
